import Mathlib

/-!
Shallow embedding of the `monmon` agent-monitoring library.

The embedding covers the pieces of the code that the verified properties
are about:

* `monmon/types.py` — the `LogEntry` record;
* `monmon/exceptions.py` — the payload of `TerminationConditionMet`;
* `monmon/monitors/local.py` — `LocalMonitor._check_termination_conditions`,
  `LocalMonitor._check_permission_conditions`, `LocalMonitor._detect_loop`;
* `monmon/base.py` — the state touched by `BaseMonitor.log`,
  `BaseMonitor.request_permission` and `BaseMonitor.grant_permission`,
  with the two threads of control modelled by explicit interleaving
  (a `log` call that finds the pause flag set is split into its append
  phase and its post-`_resume_flag.wait()` resumption phase).

All matching in the source applies Python `str(...)` to an entry's content
before comparing, so `content` here holds that stringified rendering
directly.  Python string helpers used by the source (`in`, `.lower()`,
`.split(">")`, `.strip()`, `int(...)`, slicing `l[-n:]`) are embedded as
structurally recursive functions on `List Char` / `List α` below, so that
every definition evaluates by `decide`/`rfl`.
-/

namespace Monmon

/-- `monmon/types.py` `LogEntry`.  `content` is the `str(...)` rendering of
the logged content (the source only ever inspects `str(log["content"])`);
`timestamp` abstracts the `time.time()` float as a tick, never inspected
by any rule. -/
structure LogEntry where
  role : String
  content : String
  timestamp : Nat
deriving DecidableEq

/-- Payload of the `TerminationConditionMet` exception
(`monmon/exceptions.py`): the `(condition, details)` pair stored on the
raised object. -/
structure TerminationConditionMet where
  condition : String
  details : Option String
deriving DecidableEq

/-- Python substring test `needle in hay` on character lists. -/
def subOf (needle : List Char) : List Char → Bool
  | [] => needle.isEmpty
  | c :: rest => needle.isPrefixOf (c :: rest) || subOf needle rest

/-- Python `s.lower()`.  The source compares ASCII rule text and log text;
`Char.toLower` is the ASCII case fold. -/
def lowerStr (s : String) : String := ⟨s.data.map Char.toLower⟩

/-- Python `needle.lower() in hay.lower()`, the case-insensitive substring
hit used by both condition checkers in `monmon/monitors/local.py`. -/
def containsCI (hay needle : String) : Bool :=
  subOf (lowerStr needle).data (lowerStr hay).data

/-- Python one-character `s.split(sep)` (always returns at least one piece;
adjacent separators yield empty pieces, exactly as in Python). -/
def splitChar (sep : Char) : List Char → List (List Char)
  | [] => [[]]
  | c :: rest =>
    if c == sep then [] :: splitChar sep rest
    else
      match splitChar sep rest with
      | [] => [[c]]
      | piece :: pieces => (c :: piece) :: pieces

/-- Whitespace recognised by Python `str.strip()` (ASCII range). -/
def isPySpace (c : Char) : Bool :=
  c == ' ' || c == '\t' || c == '\n' || c == '\r' || c == '\x0b' || c == '\x0c'

/-- Python `s.strip()`: drop whitespace from both ends. -/
def stripChars (l : List Char) : List Char :=
  ((l.dropWhile isPySpace).reverse.dropWhile isPySpace).reverse

/-- Decimal value of a digit list. -/
def digitsVal (l : List Char) : Nat :=
  l.foldl (fun n c => n * 10 + (c.toNat - 48)) 0

/-- One-or-more ASCII digits, else `none`. -/
def parseDigits (l : List Char) : Option Nat :=
  if !l.isEmpty && l.all Char.isDigit then some (digitsVal l) else none

/-- Python `int(s)` on an already-stripped string: optional sign then one or
more digits; anything else raises `ValueError`, modelled as `none`. -/
def parseInt? : List Char → Option Int
  | '-' :: rest => (parseDigits rest).map (fun n => -(n : Int))
  | '+' :: rest => (parseDigits rest).map (fun n => (n : Int))
  | l => (parseDigits l).map (fun n => (n : Int))

/-- Python slice `l[-n:]` for positive `n`: the most recent `n` elements
(all of them when the list is shorter than `n`). -/
def sliceLast (n : Nat) (l : List α) : List α := l.drop (l.length - n)

/-- `sum(1 for log in self._logs if log["role"] == "assistant")` from the
counting branch of `LocalMonitor._check_termination_conditions`. -/
def actionCount (logs : List LogEntry) : Nat :=
  (logs.filter (fun e => e.role == "assistant")).length

/-- `LocalMonitor._detect_loop`: false for logs shorter than 6; otherwise
take the assistant entries among the last 6 entries, require all 6, and
compare the stringified contents of the last 3 against the previous 3. -/
def detectLoop (logs : List LogEntry) : Bool :=
  if logs.length < 6 then false
  else
    let actions := (sliceLast 6 logs).filter (fun e => e.role == "assistant")
    if actions.length < 6 then false
    else
      let last3 := (sliceLast 3 actions).map (fun a => a.content)
      let prev3 := ((sliceLast 6 actions).take 3).map (fun a => a.content)
      last3 == prev3

/-- `condition.lower() in str(log["content"]).lower()`. -/
def entryMatches (condition : String) (e : LogEntry) : Bool :=
  containsCI e.content condition

/-- The loop-detection sentinel rule text from
`LocalMonitor._check_termination_conditions`. -/
def sentinel : String := "agent seems stuck in a loop"

/-- The counting-rule head tested by
`condition.startswith("the number of actions is >")`. -/
def countRuleHead : String := "the number of actions is >"

/-- Python `condition.startswith(head)`. -/
def startsWithPy (condition head : String) : Bool :=
  head.data.isPrefixOf condition.data

/-- `int(condition.split(">")[1].strip())` from the counting branch, with a
missing piece (`IndexError`) or unparseable text (`ValueError`) caught and
mapped to `none`. -/
def parseRuleLimit (condition : String) : Option Int :=
  ((splitChar '>' condition.data).get? 1).bind (fun piece => parseInt? (stripChars piece))

/-- One iteration of the rule loop in
`LocalMonitor._check_termination_conditions`: first the case-insensitive
substring scan over `self._logs[-10:]` (oldest of the window first), then
the loop-sentinel check, then the counting check.  Returns the
`TerminationConditionMet` payload that `self.terminate` would raise, or
`none` when the rule does not fire. -/
def terminationRuleHit (logs : List LogEntry) (condition : String) :
    Option TerminationConditionMet :=
  match (sliceLast 10 logs).find? (entryMatches condition) with
  | some e => some ⟨condition, some ("Detected in log: " ++ e.content)⟩
  | none =>
    if condition == sentinel && detectLoop logs then
      some ⟨condition, none⟩
    else if startsWithPy condition countRuleHead then
      match parseRuleLimit condition with
      | some limit =>
        if (actionCount logs : Int) > limit then some ⟨condition, none⟩ else none
      | none => none
    else none

/-- `LocalMonitor._check_termination_conditions`: early return on an empty
log, then the rules of `terminate_if` in declaration order; `terminate`
raises on the first hit, so later rules are never consulted. -/
def checkTerminationConditions (logs : List LogEntry) (terminateIf : List String) :
    Option TerminationConditionMet :=
  if logs.isEmpty then none
  else terminateIf.findSome? (terminationRuleHit logs)

/-- `LocalMonitor._check_permission_conditions`: early return on an empty
log; otherwise only `self._logs[-1]` is stringified and scanned against the
rules of `ask_permission_if` in order; `request_permission` is called with
the first rule that hits. -/
def checkPermissionConditions (logs : List LogEntry) (askPermissionIf : List String) :
    Option String :=
  match logs.getLast? with
  | none => none
  | some lastLog =>
    askPermissionIf.find? (fun condition => containsCI lastLog.content condition)

/-- The `BaseMonitor` state touched by `log` / `request_permission` /
`grant_permission`: the three `threading.Event` flags as booleans,
`_permission_granted` (initially Python `None`),
`_current_permission_condition`, the log list, and the record of
`_notify_permission_needed` invocations (the notification collaborator). -/
structure MonitorState where
  terminationFlag : Bool
  pauseFlag : Bool
  resumeFlag : Bool
  permissionGranted : Option Bool
  currentPermissionCondition : Option String
  logs : List LogEntry
  notified : List String
deriving DecidableEq

/-- `BaseMonitor.request_permission`: store the condition, set the pause
flag, clear the resume flag, then invoke `_notify_permission_needed` with
the condition.  The source has no already-paused guard. -/
def request_permission (s : MonitorState) (condition : String) : MonitorState :=
  { s with currentPermissionCondition := some condition,
           pauseFlag := true,
           resumeFlag := false,
           notified := s.notified ++ [condition] }

/-- `BaseMonitor.grant_permission`: record the verdict, set the resume flag
(releasing a caller blocked in `log`), clear the pause flag. -/
def grant_permission (s : MonitorState) (granted : Bool) : MonitorState :=
  { s with permissionGranted := some granted,
           resumeFlag := true,
           pauseFlag := false }

/-- Python truthiness of `_permission_granted` in
`if not self._permission_granted` (`None` and `False` are falsy). -/
def permissionTruthy (g : Option Bool) : Bool := g.getD false

/-- f-string rendering of `_current_permission_condition` in the
`"Permission denied for: ..."` message (Python prints `None` for `None`). -/
def formatCondition : Option String → String
  | none => "None"
  | some c => c

/-- Whether a `log` call returned immediately or blocked on
`_resume_flag.wait()`. -/
inductive LogOutcome where
  | returned : LogOutcome
  | blocked : LogOutcome
deriving DecidableEq

/-- First phase of `BaseMonitor.log`: append the entry, then block iff the
pause flag is set. -/
def logCall (s : MonitorState) (role content : String) (timestamp : Nat) :
    MonitorState × LogOutcome :=
  let s2 := { s with logs := s.logs ++ [⟨role, content, timestamp⟩] }
  if s2.pauseFlag then (s2, LogOutcome.blocked) else (s2, LogOutcome.returned)

/-- Resumption phase of a blocked `BaseMonitor.log` call, run once the
resume flag has been set: raise `TerminationConditionMet` iff
`_permission_granted` is falsy. -/
def logResume (s : MonitorState) : Except TerminationConditionMet Unit :=
  if permissionTruthy s.permissionGranted then Except.ok ()
  else Except.error
    ⟨"Permission denied for: " ++ formatCondition s.currentPermissionCondition, none⟩

/-! ### Concrete states and logs used to instantiate the theorems -/

/-- A monitor state whose pause flag is set, with a prior pending
condition, used to instantiate the hypotheses of the claim theorems. -/
def pausedState : MonitorState :=
  { terminationFlag := false, pauseFlag := true, resumeFlag := false,
    permissionGranted := none, currentPermissionCondition := some "send an email",
    logs := [], notified := [] }

/-- A one-entry log whose content mentions facebook.com, used to
instantiate the termination-check theorems. -/
def facebookLog : List LogEntry :=
  [⟨"assistant", "Let me check facebook.com for examples.", 0⟩]

/-- Assistant contents ending A,B,C,A,B,C with a single user entry
interleaved among the last six log entries. -/
def interleavedLog : List LogEntry :=
  [⟨"assistant", "A", 0⟩, ⟨"assistant", "B", 1⟩, ⟨"assistant", "C", 2⟩,
   ⟨"assistant", "A", 3⟩, ⟨"assistant", "B", 4⟩, ⟨"user", "status", 5⟩,
   ⟨"assistant", "C", 6⟩]

/-- A single user entry whose content contains the loop sentinel text. -/
def sentinelLog : List LogEntry :=
  [⟨"user", "agent seems stuck in a loop", 0⟩]

/-- The well-formed counting rule with threshold 3. -/
def countRuleText : String := "the number of actions is > 3"

/-- A single user entry whose content contains `countRuleText`. -/
def countCexLog : List LogEntry :=
  [⟨"user", "the number of actions is > 3", 0⟩]

/-- Four assistant entries and nothing else. -/
def fourActions : List LogEntry :=
  [⟨"assistant", "a1", 0⟩, ⟨"assistant", "a2", 1⟩,
   ⟨"assistant", "a3", 2⟩, ⟨"assistant", "a4", 3⟩]

/-- A counting rule whose threshold does not parse as an integer. -/
def malformedRule : String := "the number of actions is > lots"

/-- A single user entry whose content contains `malformedRule`. -/
def malformedLog : List LogEntry :=
  [⟨"user", "the number of actions is > lots", 0⟩]

/-! ### Helper lemmas -/

/-- A suffix slice never has more `p`-entries than the whole list. -/
lemma length_filter_sliceLast_le (p : LogEntry → Bool) (n : Nat) (l : List LogEntry) :
    ((sliceLast n l).filter p).length ≤ (l.filter p).length := by
  unfold sliceLast
  conv_rhs => rw [← List.take_append_drop (l.length - n) l]
  rw [List.filter_append, List.length_append]
  omega

/-- `l[-n:]` of `pre ++ l2` is `l2` when `l2` has exactly `n` elements. -/
lemma sliceLast_append (pre l2 : List α) (n : Nat) (h : l2.length = n) :
    sliceLast n (pre ++ l2) = l2 := by
  unfold sliceLast
  rw [List.length_append, h, Nat.add_sub_cancel]
  exact List.drop_left pre l2

/-- Characterisation of `_detect_loop`, phrased over the assistant entries
of the last-6 window. -/
lemma detectLoop_true_iff (logs : List LogEntry) :
    detectLoop logs = true ↔
      (((sliceLast 6 logs).filter (fun e => e.role == "assistant")).length = 6 ∧
       (((sliceLast 6 logs).filter (fun e => e.role == "assistant")).map
          (fun e => e.content)).take 3 =
       (((sliceLast 6 logs).filter (fun e => e.role == "assistant")).map
          (fun e => e.content)).drop 3) := by
  unfold detectLoop
  have hwin : (sliceLast 6 logs).length ≤ 6 ∨ (sliceLast 6 logs).length ≤ logs.length := by
    right; unfold sliceLast; rw [List.length_drop]; omega
  have hwin6 : (sliceLast 6 logs).length ≤ max 6 logs.length := by
    unfold sliceLast; rw [List.length_drop]; omega
  set acts := (sliceLast 6 logs).filter (fun e => e.role == "assistant") with hacts
  have hlenacts : acts.length ≤ (sliceLast 6 logs).length := List.length_filter_le _ _
  by_cases hshort : logs.length < 6
  · have hwlen : (sliceLast 6 logs).length ≤ logs.length := by
      unfold sliceLast; rw [List.length_drop]; omega
    simp only [if_pos hshort]
    constructor
    · intro h; exact absurd h (by simp)
    · rintro ⟨h6, _⟩; omega
  · simp only [if_neg hshort]
    have hwlen : (sliceLast 6 logs).length ≤ 6 := by
      unfold sliceLast; rw [List.length_drop]; omega
    by_cases hfew : acts.length < 6
    · simp only [if_pos hfew]
      constructor
      · intro h; exact absurd h (by simp)
      · rintro ⟨h6, _⟩; omega
    · simp only [if_neg hfew]
      have h6 : acts.length = 6 := by omega
      have e1 : sliceLast 3 acts = acts.drop 3 := by
        unfold sliceLast; rw [h6]
      have e2 : sliceLast 6 acts = acts := by
        unfold sliceLast; rw [h6]; simp
      rw [e1, e2, List.map_drop, List.map_take, beq_iff_eq]
      constructor
      · intro h; exact ⟨h6, h.symm⟩
      · rintro ⟨_, h⟩; exact h.symm

/-- The sentinel rule text does not start with the counting-rule head. -/
lemma sentinel_not_countRule : startsWithPy sentinel countRuleHead = false := by decide

/-- A rule that starts with the counting-rule head is not the sentinel. -/
lemma countRule_ne_sentinel (c : String)
    (hhead : startsWithPy c countRuleHead = true) : (c == sentinel) = false := by
  rw [beq_eq_false_iff_ne]
  intro he
  rw [he, sentinel_not_countRule] at hhead
  exact Bool.false_ne_true hhead

/-- `_detect_loop` on a log ending in six assistant entries reduces to the
three-versus-three content comparison of those entries. -/
lemma detectLoop_append_six (pre l6 : List LogEntry) (h6 : l6.length = 6)
    (hall : l6.filter (fun e => e.role == "assistant") = l6) :
    detectLoop (pre ++ l6) =
      ((sliceLast 3 l6).map (fun a => a.content) ==
       ((sliceLast 6 l6).take 3).map (fun a => a.content)) := by
  have hs : sliceLast 6 (pre ++ l6) = l6 := sliceLast_append pre l6 6 h6
  unfold detectLoop
  rw [List.length_append, h6, if_neg (by omega), hs, hall]
  dsimp only
  rw [h6, if_neg (by omega)]

/-! ### Claim theorems -/

/-- Claim C1: with the monitor paused and a caller blocked inside `log`
waiting for resolution, `grant_permission true` lets the blocked `log` call
return without raising, while `grant_permission false` makes it raise
`TerminationConditionMet`. -/
theorem grant_resolves_blocked_log (s : MonitorState) (role content : String)
    (ts : Nat) (hblocked : (logCall s role content ts).2 = LogOutcome.blocked) :
    logResume (grant_permission (logCall s role content ts).1 true) = Except.ok () ∧
    logResume (grant_permission (logCall s role content ts).1 false) =
      Except.error ⟨"Permission denied for: " ++
        formatCondition s.currentPermissionCondition, none⟩ := by
  unfold logCall at hblocked ⊢
  by_cases hp : s.pauseFlag
  · simp only [hp, if_pos rfl]
    constructor <;> rfl
  · exfalso
    simp only [hp] at hblocked
    simp at hblocked

/-- Witness for C1 at a concrete paused state. -/
theorem grant_resolves_blocked_log_witness :
    logResume (grant_permission (logCall pausedState "assistant" "ok" 0).1 true) =
      Except.ok () ∧
    logResume (grant_permission (logCall pausedState "assistant" "ok" 0).1 false) =
      Except.error ⟨"Permission denied for: " ++
        formatCondition pausedState.currentPermissionCondition, none⟩ :=
  grant_resolves_blocked_log pausedState "assistant" "ok" 0 rfl

/-- Claim C10: on an empty log both checks return without firing, although
the negative-threshold counting rule parses to `-1` and its comparison
`0 > -1` holds. -/
theorem empty_log_checks (tRules pRules : List String) :
    checkTerminationConditions [] tRules = none ∧
    checkPermissionConditions [] pRules = none ∧
    checkTerminationConditions [] ["the number of actions is > -1"] = none ∧
    parseRuleLimit "the number of actions is > -1" = some (-1) ∧
    ((actionCount [] : Int) > -1) := by
  refine ⟨rfl, rfl, rfl, rfl, by decide⟩

/-- Claim C9 counterexample: with the pause flag already set,
`request_permission` is not a no-op — the pending condition changes and the
notification collaborator is invoked. -/
theorem request_permission_not_noop :
    request_permission pausedState "rm -rf" ≠ pausedState ∧
    (request_permission pausedState "rm -rf").notified ≠ pausedState.notified ∧
    (request_permission pausedState "rm -rf").currentPermissionCondition ≠
      pausedState.currentPermissionCondition := by
  refine ⟨?_, ?_, ?_⟩ <;> decide

/-- Claim C9 amended: when the pause flag is already set,
`request_permission` still overwrites the stored pending condition, clears
the resume flag and invokes the notification collaborator again; only the
pause flag is left as it was (still set). -/
theorem request_permission_when_paused (s : MonitorState) (condition : String)
    (h : s.pauseFlag = true) :
    request_permission s condition =
      { s with currentPermissionCondition := some condition,
               resumeFlag := false,
               notified := s.notified ++ [condition] } := by
  cases s
  simp_all [request_permission]

/-- Claim C2: on a non-empty log, when no earlier rule fires and rule `c`
has a case-insensitive substring hit inside the last-10 window, the
termination check returns exactly rule `c` with the offending entry's
stringified content as evidence, regardless of the rules listed after it. -/
theorem termination_first_rule_wins (logs : List LogEntry)
    (earlier later : List String) (c : String) (e : LogEntry)
    (hne : logs ≠ [])
    (hearlier : ∀ c2 ∈ earlier, terminationRuleHit logs c2 = none)
    (hfind : (sliceLast 10 logs).find? (entryMatches c) = some e) :
    checkTerminationConditions logs (earlier ++ c :: later) =
      some ⟨c, some ("Detected in log: " ++ e.content)⟩ ∧
    e ∈ sliceLast 10 logs ∧ entryMatches c e = true := by
  refine ⟨?_, List.mem_of_find?_eq_some hfind, List.find?_some hfind⟩
  unfold checkTerminationConditions
  have hne2 : logs.isEmpty = false := by
    cases logs
    · exact absurd rfl hne
    · rfl
  rw [hne2]
  simp only [Bool.false_eq_true, if_false]
  rw [List.findSome?_append, List.findSome?_eq_none_iff.mpr hearlier, Option.none_or,
    List.findSome?_cons]
  have hc : terminationRuleHit logs c =
      some ⟨c, some ("Detected in log: " ++ e.content)⟩ := by
    unfold terminationRuleHit
    rw [hfind]
  rw [hc]

/-- Witness for C2: the middle rule fires on the facebook.com entry and the
rule after it is never consulted. -/
theorem termination_first_rule_wins_witness :
    checkTerminationConditions facebookLog
        (["gmail.com"] ++ "facebook.com" :: ["twitter.com"]) =
      some ⟨"facebook.com",
        some ("Detected in log: " ++ "Let me check facebook.com for examples.")⟩ ∧
    (⟨"assistant", "Let me check facebook.com for examples.", 0⟩ : LogEntry) ∈
      sliceLast 10 facebookLog ∧
    entryMatches "facebook.com"
      ⟨"assistant", "Let me check facebook.com for examples.", 0⟩ = true :=
  termination_first_rule_wins facebookLog ["gmail.com"] ["twitter.com"]
    "facebook.com" ⟨"assistant", "Let me check facebook.com for examples.", 0⟩
    (by decide) (by decide) rfl

/-- Claim C3: the permission check depends only on the newest entry — it
equals the first rule whose lowercased text is a substring of the newest
entry's lowercased stringified content, and any two logs with the same
newest entry give the same result. -/
theorem permission_checks_only_newest (logs : List LogEntry) (lastLog : LogEntry)
    (rules : List String) (h : logs.getLast? = some lastLog) :
    checkPermissionConditions logs rules =
      rules.find? (fun condition => containsCI lastLog.content condition) ∧
    ∀ logs2 : List LogEntry, logs2.getLast? = some lastLog →
      checkPermissionConditions logs2 rules = checkPermissionConditions logs rules := by
  have key : ∀ l : List LogEntry, l.getLast? = some lastLog →
      checkPermissionConditions l rules =
        rules.find? (fun condition => containsCI lastLog.content condition) := by
    intro l hl
    unfold checkPermissionConditions
    rw [hl]
  refine ⟨key logs h, fun logs2 h2 => ?_⟩
  rw [key logs2 h2, key logs h]

/-- Witness for C3: an older entry containing the rule text cannot trigger
a permission request when the newest entry does not. -/
theorem permission_checks_only_newest_witness :
    checkPermissionConditions
        [⟨"user", "please run rm -rf now", 0⟩, ⟨"assistant", "hello there", 1⟩]
        ["rm -rf"] =
      (["rm -rf"] : List String).find?
        (fun condition =>
          containsCI (LogEntry.mk "assistant" "hello there" 1).content condition) :=
  (permission_checks_only_newest
    [⟨"user", "please run rm -rf now", 0⟩, ⟨"assistant", "hello there", 1⟩]
    ⟨"assistant", "hello there", 1⟩ ["rm -rf"] rfl).1

/-- Claim C4: the loop heuristic holds iff the last-6 window contains at
least 6 assistant entries (hence all 6) whose first three stringified
contents equal the last three element-wise. -/
theorem detectLoop_characterization (logs : List LogEntry) :
    detectLoop logs = true ↔
      (6 ≤ ((sliceLast 6 logs).filter (fun e => e.role == "assistant")).length ∧
       (((sliceLast 6 logs).filter (fun e => e.role == "assistant")).map
          (fun e => e.content)).take 3 =
       (((sliceLast 6 logs).filter (fun e => e.role == "assistant")).map
          (fun e => e.content)).drop 3) := by
  rw [detectLoop_true_iff]
  have h1 : ((sliceLast 6 logs).filter (fun e => e.role == "assistant")).length ≤
      (sliceLast 6 logs).length :=
    List.length_filter_le _ _
  have h2 : (sliceLast 6 logs).length ≤ 6 := by
    unfold sliceLast; rw [List.length_drop]; omega
  constructor
  · rintro ⟨h6, h⟩; exact ⟨by omega, h⟩
  · rintro ⟨h6, h⟩; exact ⟨by omega, h⟩

/-- Witness for the amended C9 at a concrete paused state. -/
theorem request_permission_when_paused_witness :
    request_permission pausedState "rm -rf" =
      { pausedState with currentPermissionCondition := some "rm -rf",
                         resumeFlag := false,
                         notified := pausedState.notified ++ ["rm -rf"] } :=
  request_permission_when_paused pausedState "rm -rf" rfl

/-- Claim C5 counterexample: the assistant contents end A,B,C,A,B,C with a
single user entry interleaved among the last six log entries, yet the loop
heuristic returns false. -/
theorem detectLoop_interleaved_counterexample :
    (interleavedLog.filter (fun e => e.role == "assistant")).map
        (fun e => e.content) = ["A", "B", "C", "A", "B", "C"] ∧
    detectLoop interleavedLog = false := by
  constructor <;> rfl

/-- Claim C5 amended: the heuristic fires when the six newest log entries
are all assistant entries with contents A,B,C,A,B,C (non-assistant entries
may only occur before that window); with contents A,B,C,A,B,D and C ≠ D it
returns false; and with fewer than 6 assistant entries in the whole log it
returns false regardless of content. -/
theorem detectLoop_suffix_behaviour (pre : List LogEntry) (a b c d : String)
    (t1 t2 t3 t4 t5 t6 : Nat) (hcd : c ≠ d) :
    detectLoop (pre ++
      [⟨"assistant", a, t1⟩, ⟨"assistant", b, t2⟩, ⟨"assistant", c, t3⟩,
       ⟨"assistant", a, t4⟩, ⟨"assistant", b, t5⟩, ⟨"assistant", c, t6⟩]) = true ∧
    detectLoop (pre ++
      [⟨"assistant", a, t1⟩, ⟨"assistant", b, t2⟩, ⟨"assistant", c, t3⟩,
       ⟨"assistant", a, t4⟩, ⟨"assistant", b, t5⟩, ⟨"assistant", d, t6⟩]) = false ∧
    ∀ logs : List LogEntry,
      (logs.filter (fun e => e.role == "assistant")).length < 6 →
        detectLoop logs = false := by
  refine ⟨?_, ?_, ?_⟩
  · rw [detectLoop_append_six pre
      [⟨"assistant", a, t1⟩, ⟨"assistant", b, t2⟩, ⟨"assistant", c, t3⟩,
       ⟨"assistant", a, t4⟩, ⟨"assistant", b, t5⟩, ⟨"assistant", c, t6⟩] rfl rfl]
    simp [sliceLast]
  · rw [detectLoop_append_six pre
      [⟨"assistant", a, t1⟩, ⟨"assistant", b, t2⟩, ⟨"assistant", c, t3⟩,
       ⟨"assistant", a, t4⟩, ⟨"assistant", b, t5⟩, ⟨"assistant", d, t6⟩] rfl rfl]
    simp only [sliceLast, List.length_cons, List.length_nil]
    simp [Ne.symm hcd]
  · intro logs hlt
    cases hdl : detectLoop logs
    · rfl
    · exfalso
      obtain ⟨h6, _⟩ := (detectLoop_true_iff logs).mp hdl
      have := length_filter_sliceLast_le (fun e => e.role == "assistant") 6 logs
      omega

/-- Witness for the amended C5 at concrete entries with a user entry before
the six-entry window. -/
theorem detectLoop_suffix_behaviour_witness :
    detectLoop ([⟨"user", "u0", 9⟩] ++
      [⟨"assistant", "A", 0⟩, ⟨"assistant", "B", 1⟩, ⟨"assistant", "C", 2⟩,
       ⟨"assistant", "A", 3⟩, ⟨"assistant", "B", 4⟩, ⟨"assistant", "C", 5⟩]) = true ∧
    detectLoop ([⟨"user", "u0", 9⟩] ++
      [⟨"assistant", "A", 0⟩, ⟨"assistant", "B", 1⟩, ⟨"assistant", "C", 2⟩,
       ⟨"assistant", "A", 3⟩, ⟨"assistant", "B", 4⟩, ⟨"assistant", "D", 5⟩]) = false ∧
    detectLoop [] = false :=
  have h := detectLoop_suffix_behaviour [⟨"user", "u0", 9⟩] "A" "B" "C" "D"
    0 1 2 3 4 5 (by decide)
  ⟨h.1, h.2.1, h.2.2 [] (by decide)⟩

/-- Claim C6 counterexample: a single user entry containing the sentinel
text triggers termination under the sentinel rule by substring match, even
though the loop heuristic is false. -/
theorem sentinel_substring_counterexample :
    checkTerminationConditions sentinelLog [sentinel] =
      some ⟨sentinel, some "Detected in log: agent seems stuck in a loop"⟩ ∧
    detectLoop sentinelLog = false := by
  constructor <;> rfl

/-- Claim C6 amended: the sentinel rule fires when its text occurs
case-insensitively in one of the last 10 entries (the substring scan runs
first, exactly as for a literal rule), and otherwise exactly when the loop
heuristic holds. -/
theorem sentinel_rule_semantics (logs : List LogEntry) :
    terminationRuleHit logs sentinel =
      match (sliceLast 10 logs).find? (entryMatches sentinel) with
      | some e => some ⟨sentinel, some ("Detected in log: " ++ e.content)⟩
      | none => if detectLoop logs then some ⟨sentinel, none⟩ else none := by
  unfold terminationRuleHit
  cases hf : (sliceLast 10 logs).find? (entryMatches sentinel) with
  | some e => rfl
  | none =>
    cases hdl : detectLoop logs
    · simp [hdl, sentinel_not_countRule]
    · simp [hdl]

/-- Claim C7 counterexample: an entry containing the counting rule's own
text fires the rule by substring match although zero assistant entries
exist. -/
theorem counting_rule_substring_counterexample :
    actionCount countCexLog = 0 ∧
    checkTerminationConditions countCexLog [countRuleText] =
      some ⟨countRuleText, some "Detected in log: the number of actions is > 3"⟩ := by
  constructor <;> rfl

/-- Claim C7 amended: provided the rule's own text has no case-insensitive
substring hit in the last-10 window, a counting rule whose threshold parses
to `limit` fires exactly when the full-log assistant count exceeds
`limit`. -/
theorem counting_rule_semantics (logs : List LogEntry) (c : String) (limit : Int)
    (hhead : startsWithPy c countRuleHead = true)
    (hparse : parseRuleLimit c = some limit)
    (hnosub : (sliceLast 10 logs).find? (entryMatches c) = none) :
    terminationRuleHit logs c =
      (if (actionCount logs : Int) > limit then some ⟨c, none⟩ else none) := by
  unfold terminationRuleHit
  rw [hnosub]
  simp [countRule_ne_sentinel c hhead, hhead, hparse]

/-- Witness for the amended C7: with four assistant entries the rule with
threshold 3 fires. -/
theorem counting_rule_semantics_witness :
    terminationRuleHit fourActions countRuleText =
      (if (actionCount fourActions : Int) > 3 then some ⟨countRuleText, none⟩
       else none) :=
  counting_rule_semantics fourActions countRuleText 3 rfl rfl rfl

/-- Claim C8 counterexample: the malformed counting rule's threshold does
not parse, yet the rule still triggers termination by substring match on an
entry containing its text. -/
theorem malformed_rule_substring_counterexample :
    parseRuleLimit malformedRule = none ∧
    checkTerminationConditions malformedLog [malformedRule] =
      some ⟨malformedRule,
        some "Detected in log: the number of actions is > lots"⟩ := by
  constructor <;> rfl

/-- Claim C8 amended: with no substring hit in the last-10 window, a
counting rule whose threshold fails to parse never fires, raises no error
(the check is a total function), and leaves the evaluation of the remaining
rules unchanged. -/
theorem malformed_counting_rule_semantics (logs : List LogEntry) (c : String)
    (hhead : startsWithPy c countRuleHead = true)
    (hparse : parseRuleLimit c = none)
    (hnosub : (sliceLast 10 logs).find? (entryMatches c) = none) :
    terminationRuleHit logs c = none ∧
    ∀ rest : List String,
      checkTerminationConditions logs (c :: rest) =
        checkTerminationConditions logs rest := by
  have hhit : terminationRuleHit logs c = none := by
    unfold terminationRuleHit
    rw [hnosub]
    simp [countRule_ne_sentinel c hhead, hhead, hparse]
  refine ⟨hhit, fun rest => ?_⟩
  unfold checkTerminationConditions
  by_cases he : logs.isEmpty
  · rw [if_pos he, if_pos he]
  · rw [if_neg he, if_neg he, List.findSome?_cons, hhit]

/-- Witness for the amended C8: the malformed rule does not fire on four
assistant entries and the rule after it is evaluated as if it were
absent. -/
theorem malformed_counting_rule_semantics_witness :
    terminationRuleHit fourActions malformedRule = none ∧
    checkTerminationConditions fourActions (malformedRule :: ["facebook.com"]) =
      checkTerminationConditions fourActions ["facebook.com"] :=
  have h := malformed_counting_rule_semantics fourActions malformedRule rfl rfl rfl
  ⟨h.1, h.2 ["facebook.com"]⟩

end Monmon
